import Mathlib

/-!
Verification of `src/liquibase/cicd.py` (CI/CD Liquibase helper).

The script is shallowly embedded: lines of text are `String`s, a filesystem
is a `List FsFile`, Python exceptions become explicit error values, and each
Python function becomes a Lean function traced from the source.
-/

set_option autoImplicit false

/-! ### Python character / string primitives -/

/-- Characters Python's `str.strip()` / `str.split()` treat as whitespace
(the ASCII subset, which is all the script ever meets). -/
def pyIsSpace (c : Char) : Bool :=
  c = ' ' || c = '\t' || c = '\n' || c = '\r' || c = '\x0b' || c = '\x0c'

/-- Boolean test that `n` is an initial segment of `h`. -/
def headEq : List Char → List Char → Bool
  | [], _ => true
  | _ :: _, [] => false
  | a :: n, b :: h => a = b && headEq n h

/-- Boolean substring test, the semantics of Python's `needle in hay`. -/
def isSub (n : List Char) : List Char → Bool
  | [] => headEq n []
  | c :: h => headEq n (c :: h) || isSub n h

/-- Python's `str.strip()`: drop whitespace from both ends. -/
def pyStrip (l : List Char) : List Char :=
  ((l.dropWhile pyIsSpace).reverse.dropWhile pyIsSpace).reverse

/-- String form of `pyStrip`. -/
def pyStripS (s : String) : String :=
  ⟨pyStrip s.data⟩

/-- Truthiness of `line.strip()` in Python: the line has a character that is
not whitespace. -/
def keepLine (s : String) : Bool :=
  !(pyStrip s.data).isEmpty

theorem headEq_iff (n h : List Char) : headEq n h = true ↔ ∃ t, h = n ++ t := by
  induction n generalizing h with
  | nil => simp [headEq]
  | cons a n ih =>
    cases h with
    | nil => simp [headEq]
    | cons b h =>
      simp only [headEq, Bool.and_eq_true, decide_eq_true_eq, ih, List.cons_append,
        List.cons.injEq]
      constructor
      · rintro ⟨rfl, t, rfl⟩; exact ⟨t, rfl, rfl⟩
      · rintro ⟨t, rfl, rfl⟩; exact ⟨rfl, t, rfl⟩

theorem isSub_iff (n h : List Char) : isSub n h = true ↔ ∃ p t, h = p ++ (n ++ t) := by
  induction h with
  | nil =>
    simp only [isSub, headEq_iff]
    constructor
    · rintro ⟨t, ht⟩; exact ⟨[], t, ht⟩
    · rintro ⟨p, t, ht⟩
      rcases List.append_eq_nil.mp ht.symm with ⟨rfl, h2⟩
      exact ⟨t, h2.symm⟩
  | cons c h ih =>
    simp only [isSub, Bool.or_eq_true, headEq_iff, ih]
    constructor
    · rintro (⟨t, ht⟩ | ⟨p, t, ht⟩)
      · exact ⟨[], t, by simpa using ht⟩
      · exact ⟨c :: p, t, by simp [ht]⟩
    · rintro ⟨p, t, ht⟩
      cases p with
      | nil => exact Or.inl ⟨t, by simpa using ht⟩
      | cons x p =>
        simp only [List.cons_append, List.cons.injEq] at ht
        exact Or.inr ⟨p, t, ht.2⟩

theorem isSub_trans {a b c : List Char} (hab : isSub a b = true) (hbc : isSub b c = true) :
    isSub a c = true := by
  rcases (isSub_iff a b).mp hab with ⟨p, t, hb⟩
  rcases (isSub_iff b c).mp hbc with ⟨q, u, hc⟩
  refine (isSub_iff a c).mpr ⟨q ++ p, t ++ u, ?_⟩
  subst hb
  rw [hc]
  simp

theorem mem_of_isSub {n h : List Char} {c : Char} (hs : isSub n h = true) (hc : c ∈ n) :
    c ∈ h := by
  rcases (isSub_iff n h).mp hs with ⟨p, t, rfl⟩
  simp [hc]

theorem pyStrip_eq_nil_iff (l : List Char) :
    pyStrip l = [] ↔ ∀ c ∈ l, pyIsSpace c = true := by
  unfold pyStrip
  rw [List.reverse_eq_nil_iff, List.dropWhile_eq_nil_iff]
  constructor
  · intro h c hc
    rcases List.mem_append.mp ((List.takeWhile_append_dropWhile (p := pyIsSpace)
        (l := l)) ▸ hc) with h1 | h1
    · exact List.mem_takeWhile_imp h1
    · exact h _ (List.mem_reverse.mpr h1)
  · intro h c hc
    exact h c (List.dropWhile_sublist (p := pyIsSpace) (l := l)
      |>.mem (List.mem_reverse.mp hc))

theorem keepLine_iff (s : String) :
    keepLine s = true ↔ ∃ c ∈ s.data, pyIsSpace c = false := by
  have h1 : keepLine s = true ↔ ¬ pyStrip s.data = [] := by
    unfold keepLine
    cases hp : pyStrip s.data <;> simp [hp]
  rw [h1, pyStrip_eq_nil_iff]
  push_neg
  constructor
  · rintro ⟨c, hc, hcs⟩
    exact ⟨c, hc, by simpa using hcs⟩
  · rintro ⟨c, hc, hcs⟩
    exact ⟨c, hc, by simp [hcs]⟩

theorem keepLine_eq_false_iff (s : String) :
    keepLine s = false ↔ ∀ c ∈ s.data, pyIsSpace c = true := by
  rw [← Bool.not_eq_true, keepLine_iff]
  push_neg
  constructor
  · intro h c hc
    have := h c hc
    simpa using this
  · intro h c hc
    simp [h c hc]

/-! ### run_sqlcl: transcript scanning and success classification
(`run_sqlcl`, cicd.py lines 62-88). -/

/-- Substring test on strings, Python's `x in line`. -/
def strSub (needle hay : String) : Bool :=
  isSub needle.data hay.data

/-- The fixed error markers of `run_sqlcl` (cicd.py line 78). -/
def error_matches : List String :=
  ["Error Message", "ORA-", "SQL Error", "Validation Failed", "Unexpected internal error"]

/-- Python's `any(x in line for x in error_matches)`. -/
def hasMarker (line : String) : Bool :=
  error_matches.any (fun m => strSub m line)

/-- The `exit_status` computed by the scanning loop of `run_sqlcl` (lines
77-83): `filter(None, result_list)` drops empty lines, and any surviving line
containing a marker sets `exit_status = 1`. -/
def scanExitStatus (stdout_lines : List String) : Nat :=
  stdout_lines.foldl (fun st line => if line ≠ "" && hasMarker line then 1 else st) 0

/-- The final check of `run_sqlcl` (lines 84-88): `sys.exit(1)` when the
subprocess return code is truthy or `exit_status` is truthy, success
otherwise. -/
def run_sqlcl_check (returncode : Int) (stdout_lines : List String) : Except Nat Unit :=
  if returncode ≠ 0 || scanExitStatus stdout_lines ≠ 0 then Except.error 1 else Except.ok ()

theorem scanExitStatus_foldl (stdout_lines : List String) (st : Nat) :
    stdout_lines.foldl (fun st line => if line ≠ "" && hasMarker line then 1 else st) st = 0 ↔
      st = 0 ∧ ∀ l ∈ stdout_lines, l ≠ "" → hasMarker l = false := by
  induction stdout_lines generalizing st with
  | nil => simp
  | cons a rest ih =>
    simp only [List.foldl_cons, ih, List.mem_cons]
    by_cases ha : a ≠ "" ∧ hasMarker a = true
    · rw [if_pos (by simp [ha.1, ha.2])]
      constructor
      · rintro ⟨h, -⟩; exact absurd h one_ne_zero
      · rintro ⟨-, hall⟩
        exact absurd (hall a (Or.inl rfl) ha.1) (by simp [ha.2])
    · rw [if_neg (by
        intro hcon
        rcases Bool.and_eq_true _ _ |>.mp hcon with ⟨h1, h2⟩
        exact ha ⟨by simpa using h1, h2⟩)]
      constructor
      · rintro ⟨hst, hall⟩
        refine ⟨hst, ?_⟩
        rintro l (rfl | hl) hne
        · by_contra hm
          exact ha ⟨hne, by simpa using hm⟩
        · exact hall l hl hne
      · rintro ⟨hst, hall⟩
        exact ⟨hst, fun l hl hne => hall l (Or.inr hl) hne⟩

theorem scanExitStatus_eq_zero_iff (stdout_lines : List String) :
    scanExitStatus stdout_lines = 0 ↔
      ∀ l ∈ stdout_lines, l ≠ "" → hasMarker l = false := by
  unfold scanExitStatus
  rw [scanExitStatus_foldl]
  simp

/-- A line that contains one of the error markers has a non-whitespace
character, hence a non-empty `strip()`. -/
theorem keepLine_of_hasMarker {l : String} (h : hasMarker l = true) :
    keepLine l = true := by
  unfold hasMarker at h
  rw [List.any_eq_true] at h
  rcases h with ⟨m, hm, hsub⟩
  rw [keepLine_iff]
  unfold error_matches at hm
  unfold strSub at hsub
  have hhead : ∃ c ∈ m.data, pyIsSpace c = false := by
    fin_cases hm <;> decide
  rcases hhead with ⟨c, hc, hcs⟩
  exact ⟨c, mem_of_isSub hsub hc, hcs⟩

theorem hasMarker_keepLine {l : String} (h : hasMarker l = true) : keepLine l = true :=
  keepLine_of_hasMarker h

theorem keepLine_ne_empty {l : String} (h : keepLine l = true) : l ≠ "" := by
  intro he
  subst he
  exact absurd h (by decide)

theorem run_sqlcl_check_ok_iff (rc : Int) (stdout_lines : List String) :
    run_sqlcl_check rc stdout_lines = Except.ok () ↔
      rc = 0 ∧ scanExitStatus stdout_lines = 0 := by
  by_cases h1 : rc = 0 <;> by_cases h2 : scanExitStatus stdout_lines = 0 <;>
    simp [run_sqlcl_check, h1, h2]

/-- Claim C4: a `run_sqlcl` invocation is classified successful iff the
subprocess exit code is zero and no non-blank transcript line contains one of
the fixed error markers; any other outcome exits the pipeline with status 1;
in particular a transcript line containing the literal substring
"ORA-00001" makes a zero-exit run fail. -/
theorem C4_run_sqlcl_classification (rc : Int) (stdout_lines : List String) :
    (run_sqlcl_check rc stdout_lines = Except.ok () ↔
      rc = 0 ∧ ∀ l ∈ stdout_lines, keepLine l = true → hasMarker l = false) ∧
    (run_sqlcl_check rc stdout_lines ≠ Except.ok () →
      run_sqlcl_check rc stdout_lines = Except.error 1) ∧
    (∀ l ∈ stdout_lines, strSub "ORA-00001" l = true →
      run_sqlcl_check 0 stdout_lines = Except.error 1) := by
  have hbridge : (∀ l ∈ stdout_lines, l ≠ "" → hasMarker l = false) ↔
      (∀ l ∈ stdout_lines, keepLine l = true → hasMarker l = false) := by
    constructor
    · intro h l hl hk
      exact h l hl (keepLine_ne_empty hk)
    · intro h l hl hne
      by_contra hm
      have hm' : hasMarker l = true := by simpa using hm
      exact absurd (h l hl (hasMarker_keepLine hm')) (by simp [hm'])
  refine ⟨?_, ?_, ?_⟩
  · rw [run_sqlcl_check_ok_iff, scanExitStatus_eq_zero_iff, hbridge]
  · intro hne
    unfold run_sqlcl_check at hne ⊢
    split at hne
    · rename_i h
      rw [if_pos h]
    · exact absurd rfl hne
  · intro l hl hsub
    have hm : hasMarker l = true := by
      unfold hasMarker error_matches
      have h1 : strSub "ORA-" l = true :=
        isSub_trans (a := "ORA-".data) (b := "ORA-00001".data) (by decide) hsub
      simp only [List.any_eq_true]
      exact ⟨"ORA-", by simp, h1⟩
    have hscan : scanExitStatus stdout_lines ≠ 0 := by
      intro h0
      have := (scanExitStatus_eq_zero_iff stdout_lines).mp h0 l hl
        (keepLine_ne_empty (hasMarker_keepLine hm))
      simp [hm] at this
    simp [run_sqlcl_check, hscan]

/-! ### Filesystem model -/

/-- A file: a path and its content as the list of lines Python's line
iteration yields (each line carries its trailing newline, except possibly
the last). -/
structure FsFile where
  name : String
  content : List String
deriving DecidableEq

theorem FsFile.eq_of_parts {a b : FsFile} (h1 : a.name = b.name)
    (h2 : a.content = b.content) : a = b := by
  cases a; cases b; cases h1; cases h2; rfl

/-- Truth of `os.path.exists(path)` against a filesystem. -/
def fsExists (path : String) (fs : List FsFile) : Bool :=
  fs.any (fun f => f.name = path)

/-- Effect of a successful `os.remove(path)` on a filesystem. -/
def fsRemove (path : String) (fs : List FsFile) : List FsFile :=
  fs.filter (fun f => f.name ≠ path)

/-- The files enumerated by `glob.iglob(f'{directory}/**/*.xml',
recursive=True)`: names under `directory` ending in `.xml`. -/
def isXmlUnder (dir : String) (name : String) : Bool :=
  headEq (dir ++ "/").data name.data && headEq ".xml".data.reverse name.data.reverse

def globXml (dir : String) (fs : List FsFile) : List FsFile :=
  fs.filter (fun f => isXmlUnder dir f.name)

/-! ### post_generate (cicd.py lines 49-60) -/

/-- One file's rewrite by the post_generate loop (lines 56-60): every line
with a truthy `strip()` is written back in order; `truncate()` then cuts the
file at what was written, so the dropped lines and any residue vanish. -/
def post_generate_file : List String → List String
  | [] => []
  | l :: ls => if keepLine l then l :: post_generate_file ls else post_generate_file ls

theorem post_generate_file_eq_filter (ls : List String) :
    post_generate_file ls = ls.filter keepLine := by
  induction ls with
  | nil => rfl
  | cons l ls ih =>
    by_cases h : keepLine l <;> simp [post_generate_file, h, ih, List.filter_cons]

/-- post_generate: rewrite every globbed XML file of the directory in place.
Files outside the glob are untouched. -/
def post_generate (dir : String) (fs : List FsFile) : List FsFile :=
  fs.map (fun f =>
    if isXmlUnder dir f.name then ⟨f.name, post_generate_file f.content⟩ else f)

/-- Claim C5: every XML file processed by post_generate is rewritten to
exactly its non-blank lines, in their original order and with their content
unchanged; a file with N non-blank lines yields exactly N lines; a file with
no blank lines is left unchanged. -/
theorem C5_post_generate_rewrites (dir : String) (fs : List FsFile) (f : FsFile)
    (hf : f ∈ fs) (hx : isXmlUnder dir f.name = true) :
    ∃ g ∈ post_generate dir fs, g.name = f.name ∧
      g.content = f.content.filter keepLine ∧
      g.content.length = f.content.countP keepLine ∧
      ((∀ l ∈ f.content, keepLine l = true) → g = f) := by
  refine ⟨⟨f.name, post_generate_file f.content⟩, ?_, rfl, ?_, ?_, ?_⟩
  · unfold post_generate
    exact List.mem_map.mpr ⟨f, hf, by rw [if_pos hx]⟩
  · exact post_generate_file_eq_filter _
  · rw [post_generate_file_eq_filter]
    exact (List.countP_eq_length_filter _ _).symm
  · intro hall
    refine FsFile.eq_of_parts rfl ?_
    rw [post_generate_file_eq_filter]
    exact List.filter_eq_self.mpr hall

theorem C5_post_generate_rewrites_witness :
    ∃ g ∈ post_generate "apex" [⟨"apex/f103.xml", ["<a>\n", " \n", "</a>"]⟩],
      g.name = "apex/f103.xml" ∧
      g.content = ["<a>\n", " \n", "</a>"].filter keepLine ∧
      g.content.length = ["<a>\n", " \n", "</a>"].countP keepLine ∧
      ((∀ l ∈ ["<a>\n", " \n", "</a>"], keepLine l = true) →
        g = ⟨"apex/f103.xml", ["<a>\n", " \n", "</a>"]⟩) :=
  C5_post_generate_rewrites "apex" [⟨"apex/f103.xml", ["<a>\n", " \n", "</a>"]⟩]
    ⟨"apex/f103.xml", ["<a>\n", " \n", "</a>"]⟩ (by decide) (by decide)

/-- Claim C6: post_generate is idempotent: a second run over the same
directory reproduces the first run's filesystem exactly. -/
theorem C6_post_generate_idempotent (dir : String) (fs : List FsFile) :
    post_generate dir (post_generate dir fs) = post_generate dir fs := by
  unfold post_generate
  rw [List.map_map]
  refine List.map_congr_left ?_
  intro f _
  by_cases hx : isXmlUnder dir f.name
  · simp only [Function.comp_apply, if_pos hx]
    refine FsFile.eq_of_parts rfl ?_
    simp only [post_generate_file_eq_filter, List.filter_filter]
    exact List.filter_congr (fun a _ => by rw [Bool.and_self])
  · simp only [Function.comp_apply, if_neg hx]

/-! ### pre_generate (cicd.py lines 29-47) -/

/-- First literal piece of the pattern in
`re.search("\<changeSet.*author=\"\(.*\)-Generated\".*?", line)`: since the
pattern is not a raw string, `\<`, `\(` and `\)` are regex escapes of
literal characters, so a match is `<changeSet`, a non-newline gap,
`author="(`, a non-newline gap, then `)-Generated"`. -/
def tokChangeSet : List Char := "<changeSet".data

def tokAuthor : List Char := "author=\"(".data

def tokGen : List Char := ")-Generated\"".data

/-- All remainders following an occurrence of `tok` anywhere in the input
(`re.search` may start a match at any position). -/
def occs (tok : List Char) : List Char → List (List Char)
  | [] => if headEq tok [] then [([] : List Char)] else []
  | c :: rest =>
    (if headEq tok (c :: rest) then [(c :: rest).drop tok.length] else []) ++
      occs tok rest

/-- All remainders following an occurrence of `tok` reachable from the start
of the input across a gap of non-newline characters (a `.*` gap: `.` does
not match a newline). -/
def occsNoNewline (tok : List Char) : List Char → List (List Char)
  | [] => if headEq tok [] then [([] : List Char)] else []
  | c :: rest =>
    (if headEq tok (c :: rest) then [(c :: rest).drop tok.length] else []) ++
      (if c = '\n' then [] else occsNoNewline tok rest)

/-- Truth of the `re.search` on one line (cicd.py line 44). -/
def genMatch (line : String) : Bool :=
  (occs tokChangeSet line.data).any (fun r1 =>
    (occsNoNewline tokAuthor r1).any (fun r2 =>
      !(occsNoNewline tokGen r2).isEmpty))

/-- The Python exceptions the model distinguishes. -/
inductive PyError where
  | fileNotFound (path : String)
deriving DecidableEq

/-- `os.remove(path)`: removes the path, or raises FileNotFoundError when it
is absent. -/
def osRemove (path : String) (fs : List FsFile) : Except PyError (List FsFile) :=
  if fsExists path fs then Except.ok (fsRemove path fs)
  else Except.error (PyError.fileNotFound path)

/-- The inner line loop of pre_generate (lines 43-47). The `continue` on
line 47 continues the line loop (it is its last statement, hence a no-op),
so after removing the file the loop keeps scanning; a further matching line
calls `os.remove` on the already-removed path. An uncaught exception aborts
the whole call, leaving the filesystem as mutated so far. -/
def scanLines (path : String) : List String → List FsFile →
    Option PyError × List FsFile
  | [], fs => (none, fs)
  | line :: rest, fs =>
    if genMatch line then
      match osRemove path fs with
      | Except.ok fs' => scanLines path rest fs'
      | Except.error e => (some e, fs)
    else scanLines path rest fs

/-- Processing of one globbed file (lines 38-47): when `remove_controller`
is set and the name starts with `{directory}/controller`, the file is
removed outright and the `continue` on line 42 moves to the next file;
otherwise its lines are scanned. -/
def processFile (dir : String) (remove_controller : Bool) (f : FsFile)
    (fs : List FsFile) : Option PyError × List FsFile :=
  if headEq (dir ++ "/controller").data f.name.data && remove_controller then
    match osRemove f.name fs with
    | Except.ok fs' => (none, fs')
    | Except.error e => (some e, fs)
  else scanLines f.name f.content fs

/-- The file loop of pre_generate over the glob listing; an uncaught
exception stops the iteration. -/
def pre_generate_aux (dir : String) (remove_controller : Bool) :
    List FsFile → List FsFile → Option PyError × List FsFile
  | [], fs => (none, fs)
  | f :: rest, fs =>
    match processFile dir remove_controller f fs with
    | (none, fs') => pre_generate_aux dir remove_controller rest fs'
    | (some e, fs') => (some e, fs')

/-- pre_generate (cicd.py lines 29-47). -/
def pre_generate (dir : String) (remove_controller : Bool) (fs : List FsFile) :
    Option PyError × List FsFile :=
  pre_generate_aux dir remove_controller (globXml dir fs) fs

theorem fsExists_iff (path : String) (fs : List FsFile) :
    fsExists path fs = true ↔ ∃ f ∈ fs, f.name = path := by
  unfold fsExists
  rw [List.any_eq_true]
  simp

theorem fsExists_of_mem {f : FsFile} {fs : List FsFile} (hf : f ∈ fs) :
    fsExists f.name fs = true :=
  (fsExists_iff _ _).mpr ⟨f, hf, rfl⟩

theorem mem_fsRemove {f : FsFile} {path : String} {fs : List FsFile}
    (hf : f ∈ fs) (hne : f.name ≠ path) : f ∈ fsRemove path fs :=
  List.mem_filter.mpr ⟨hf, by simp [hne]⟩

theorem fsExists_fsRemove_self (path : String) (fs : List FsFile) :
    fsExists path (fsRemove path fs) = false := by
  rw [Bool.eq_false_iff]
  intro hcon
  rcases (fsExists_iff _ _).mp hcon with ⟨f, hf, hname⟩
  have h2 := (List.mem_filter.mp hf).2
  simp [hname] at h2

theorem fsExists_fsRemove_ne {p q : String} (hpq : p ≠ q) (fs : List FsFile) :
    fsExists p (fsRemove q fs) = fsExists p fs := by
  cases h : fsExists p fs with
  | false =>
    rw [Bool.eq_false_iff]
    intro hcon
    rcases (fsExists_iff _ _).mp hcon with ⟨f, hf, hname⟩
    have : fsExists p fs = true :=
      (fsExists_iff _ _).mpr ⟨f, (List.mem_filter.mp hf).1, hname⟩
    rw [h] at this
    exact Bool.false_ne_true this
  | true =>
    rcases (fsExists_iff _ _).mp h with ⟨f, hf, hname⟩
    exact (fsExists_iff _ _).mpr
      ⟨f, mem_fsRemove hf (by rw [hname]; exact hpq), hname⟩

theorem fsExists_fsRemove_le {p q : String} {fs : List FsFile}
    (h : fsExists p (fsRemove q fs) = true) : fsExists p fs = true := by
  rcases (fsExists_iff _ _).mp h with ⟨f, hf, hname⟩
  exact (fsExists_iff _ _).mpr ⟨f, (List.mem_filter.mp hf).1, hname⟩

theorem osRemove_pos {path : String} {fs : List FsFile}
    (h : fsExists path fs = true) :
    osRemove path fs = Except.ok (fsRemove path fs) := by
  simp [osRemove, h]

theorem osRemove_neg {path : String} {fs : List FsFile}
    (h : fsExists path fs = false) :
    osRemove path fs = Except.error (PyError.fileNotFound path) := by
  simp [osRemove, h]

/-- Complete characterization of the line-scan loop: no matching line leaves
the filesystem alone; with the file present, one matching line removes it and
a second one raises FileNotFoundError; with the file absent, the first
matching line raises. -/
theorem scanLines_spec (path : String) (lines : List String) (fs : List FsFile) :
    scanLines path lines fs =
      if lines.countP genMatch = 0 then (none, fs)
      else if fsExists path fs = true then
        if lines.countP genMatch = 1 then (none, fsRemove path fs)
        else (some (PyError.fileNotFound path), fsRemove path fs)
      else (some (PyError.fileNotFound path), fs) := by
  induction lines generalizing fs with
  | nil => simp [scanLines]
  | cons line rest ih =>
    by_cases hm : genMatch line = true
    · have hcount : (line :: rest).countP genMatch = rest.countP genMatch + 1 :=
        List.countP_cons_of_pos _ _ hm
      by_cases hex : fsExists path fs = true
      · have hstep : scanLines path (line :: rest) fs =
            scanLines path rest (fsRemove path fs) := by
          simp only [scanLines, hm, if_pos, osRemove_pos hex]
        rw [hstep, ih, hcount]
        rw [fsExists_fsRemove_self]
        by_cases h0 : rest.countP genMatch = 0
        · simp [h0, hex]
        · have hne0 : rest.countP genMatch + 1 ≠ 0 := Nat.succ_ne_zero _
          have hne1 : rest.countP genMatch + 1 ≠ 1 := by omega
          simp [h0, hex, hne0, hne1]
      · have hexf : fsExists path fs = false := by
          rw [Bool.eq_false_iff]; exact hex
        have hstep : scanLines path (line :: rest) fs =
            (some (PyError.fileNotFound path), fs) := by
          simp only [scanLines, hm, if_pos, osRemove_neg hexf]
        rw [hstep, hcount]
        rw [if_neg (Nat.succ_ne_zero _), if_neg hex]
    · have hm' : genMatch line = false := by
        rw [Bool.eq_false_iff]; exact hm
      have hcount : (line :: rest).countP genMatch = rest.countP genMatch :=
        List.countP_cons_of_neg _ _ (by rw [hm']; exact Bool.false_ne_true)
      have hstep : scanLines path (line :: rest) fs = scanLines path rest fs := by
        simp [scanLines, hm']
      rw [hstep, ih, hcount]

theorem pre_generate_aux_cons (dir : String) (rc : Bool) (g : FsFile)
    (rest fs : List FsFile) :
    pre_generate_aux dir rc (g :: rest) fs =
      match processFile dir rc g fs with
      | (none, fs') => pre_generate_aux dir rc rest fs'
      | (some e, fs') => (some e, fs') := rfl

/-- Each file step leaves the filesystem alone or removes just that file's
name. -/
theorem processFile_snd (dir : String) (rc : Bool) (g : FsFile) (fs : List FsFile) :
    (processFile dir rc g fs).2 = fs ∨
      (processFile dir rc g fs).2 = fsRemove g.name fs := by
  unfold processFile
  split
  · by_cases hex : fsExists g.name fs = true
    · rw [osRemove_pos hex]
      exact Or.inr rfl
    · rw [osRemove_neg (Bool.eq_false_iff.mpr hex)]
      exact Or.inl rfl
  · rw [scanLines_spec]
    by_cases h0 : g.content.countP genMatch = 0
    · rw [if_pos h0]; exact Or.inl rfl
    · rw [if_neg h0]
      by_cases hex : fsExists g.name fs = true
      · rw [if_pos hex]
        by_cases h1 : g.content.countP genMatch = 1
        · rw [if_pos h1]; exact Or.inr rfl
        · rw [if_neg h1]; exact Or.inr rfl
      · rw [if_neg hex]; exact Or.inl rfl

/-- A file none of whose lines matches, and which is not claimed by the
controller branch, survives the whole pass untouched (removeController is
false here, so the controller branch is off for every file). -/
theorem pre_generate_aux_preserves (dir : String) (f : FsFile)
    (listing : List FsFile) :
    ∀ (fs : List FsFile), f ∈ fs →
      (∀ g ∈ listing, g.name = f.name → g.content.countP genMatch = 0) →
      f ∈ (pre_generate_aux dir false listing fs).2 := by
  induction listing with
  | nil =>
    intro fs hf _
    exact hf
  | cons g rest ih =>
    intro fs hf hsafe
    have hpf : processFile dir false g fs = scanLines g.name g.content fs := by
      unfold processFile
      rw [if_neg (by simp)]
    by_cases hname : g.name = f.name
    · have h0 : g.content.countP genMatch = 0 :=
        hsafe g (List.mem_cons_self _ _) hname
      have hscan : scanLines g.name g.content fs = (none, fs) := by
        rw [scanLines_spec, if_pos h0]
      rw [pre_generate_aux_cons, hpf, hscan]
      exact ih fs hf (fun g' hg' h' => hsafe g' (List.mem_cons_of_mem _ hg') h')
    · have hne : f.name ≠ g.name := fun he => hname he.symm
      have hmem : f ∈ (scanLines g.name g.content fs).2 := by
        rw [scanLines_spec]
        by_cases h0 : g.content.countP genMatch = 0
        · rw [if_pos h0]; exact hf
        · rw [if_neg h0]
          by_cases hex : fsExists g.name fs = true
          · rw [if_pos hex]
            by_cases h1 : g.content.countP genMatch = 1
            · rw [if_pos h1]; exact mem_fsRemove hf hne
            · rw [if_neg h1]; exact mem_fsRemove hf hne
          · rw [if_neg hex]; exact hf
      rcases hsl : scanLines g.name g.content fs with ⟨e, fs'⟩
      rw [hsl] at hmem
      have hmem' : f ∈ fs' := hmem
      rw [pre_generate_aux_cons, hpf, hsl]
      cases e with
      | none =>
        exact ih fs' hmem' (fun g' hg' h' => hsafe g' (List.mem_cons_of_mem _ hg') h')
      | some err => exact hmem'

/-- Claim C7: an XML file with no generated-changeset line is left
byte-identical (name and content) by pre_generate with
removeController = false, whatever happens to co-located files. -/
theorem C7_pre_generate_frame (dir : String) (fs : List FsFile) (f : FsFile)
    (hf : f ∈ fs) (hnodup : (fs.map FsFile.name).Nodup)
    (hnomatch : ∀ l ∈ f.content, genMatch l = false) :
    f ∈ (pre_generate dir false fs).2 := by
  unfold pre_generate
  refine pre_generate_aux_preserves dir f (globXml dir fs) fs hf ?_
  intro g hg hname
  have hgfs : g ∈ fs := (List.mem_filter.mp hg).1
  have hgf : g = f := List.inj_on_of_nodup_map hnodup hgfs hf hname
  subst hgf
  rw [List.countP_eq_zero]
  intro l hl
  simp [hnomatch l hl]

theorem C7_pre_generate_frame_witness :
    (⟨"schema/a.xml", ["<x>\n"]⟩ : FsFile) ∈
      (pre_generate "schema" false
        [⟨"schema/a.xml", ["<x>\n"]⟩,
         ⟨"schema/b.xml", ["<changeSet author=\"(bob)-Generated\">\n"]⟩]).2 :=
  C7_pre_generate_frame "schema"
    [⟨"schema/a.xml", ["<x>\n"]⟩,
     ⟨"schema/b.xml", ["<changeSet author=\"(bob)-Generated\">\n"]⟩]
    ⟨"schema/a.xml", ["<x>\n"]⟩
    (by decide) (by decide) (by decide)

/-- A present file with at most one matching line is processed without an
exception, and the filesystem either stays the same or loses that file. -/
theorem processFile_safe (dir : String) (rc : Bool) (g : FsFile)
    (fs : List FsFile) (hex : fsExists g.name fs = true)
    (hle : g.content.countP genMatch ≤ 1) :
    processFile dir rc g fs = (none, fs) ∨
      processFile dir rc g fs = (none, fsRemove g.name fs) := by
  unfold processFile
  split
  · rw [osRemove_pos hex]
    exact Or.inr rfl
  · rw [scanLines_spec]
    by_cases h0 : g.content.countP genMatch = 0
    · rw [if_pos h0]; exact Or.inl rfl
    · have h1 : g.content.countP genMatch = 1 :=
        le_antisymm hle (Nat.one_le_iff_ne_zero.mpr h0)
      rw [if_neg h0, if_pos hex, if_pos h1]
      exact Or.inr rfl

/-- A present file with at least one matching line is removed by its own
processing step, whether or not the step then raises. -/
theorem processFile_removes_self (dir : String) (rc : Bool) (f : FsFile)
    (fs : List FsFile) (hex : fsExists f.name fs = true)
    (hmatch : f.content.countP genMatch ≠ 0) :
    (processFile dir rc f fs).2 = fsRemove f.name fs := by
  unfold processFile
  split
  · rw [osRemove_pos hex]
  · rw [scanLines_spec, if_neg hmatch, if_pos hex]
    by_cases h1 : f.content.countP genMatch = 1
    · rw [if_pos h1]
    · rw [if_neg h1]

/-- The pass never re-creates a file: once a name is absent it stays
absent. -/
theorem pre_generate_aux_no_add (dir : String) (rc : Bool) (p : String)
    (listing : List FsFile) :
    ∀ (fs : List FsFile), fsExists p fs = false →
      fsExists p (pre_generate_aux dir rc listing fs).2 = false := by
  induction listing with
  | nil => intro fs h; exact h
  | cons g rest ih =>
    intro fs h
    have hstep : fsExists p (processFile dir rc g fs).2 = false := by
      rcases processFile_snd dir rc g fs with h2 | h2 <;> rw [h2]
      · exact h
      · rw [Bool.eq_false_iff]
        intro hcon
        have hfs := fsExists_fsRemove_le hcon
        rw [h] at hfs
        exact Bool.false_ne_true hfs
    rcases hpf : processFile dir rc g fs with ⟨e, fs'⟩
    rw [hpf] at hstep
    have hstep' : fsExists p fs' = false := hstep
    rw [pre_generate_aux_cons, hpf]
    cases e with
    | none => exact ih fs' hstep'
    | some err => exact hstep'

/-- Core removal lemma for the file loop: if the listing has pairwise
distinct names, all its files are present, f is listed with a matching
line, and every other listed file has at most one matching line (so no
earlier file aborts the pass), then f's name is gone afterwards. -/
theorem pre_generate_aux_removes (dir : String) (rc : Bool) (f : FsFile)
    (hmatch : f.content.countP genMatch ≠ 0) (listing : List FsFile) :
    ∀ (fs : List FsFile), f ∈ listing →
      fsExists f.name fs = true →
      (listing.map FsFile.name).Nodup →
      (∀ g ∈ listing, fsExists g.name fs = true) →
      (∀ g ∈ listing, g ≠ f → g.content.countP genMatch ≤ 1) →
      fsExists f.name (pre_generate_aux dir rc listing fs).2 = false := by
  induction listing with
  | nil =>
    intro fs hmem
    exact absurd hmem (List.not_mem_nil f)
  | cons g rest ih =>
    intro fs hmem hex hnodup hall hle
    rw [List.map_cons, List.nodup_cons] at hnodup
    by_cases hgf : g = f
    · subst hgf
      have hrm := processFile_removes_self dir rc g fs hex hmatch
      rcases hpf : processFile dir rc g fs with ⟨e, fs'⟩
      rw [hpf] at hrm
      have hrm' : fs' = fsRemove g.name fs := hrm
      rw [pre_generate_aux_cons, hpf]
      have hgone : fsExists g.name fs' = false := by
        rw [hrm']
        exact fsExists_fsRemove_self _ _
      cases e with
      | none => exact pre_generate_aux_no_add dir rc g.name rest fs' hgone
      | some err => exact hgone
    · have hfrest : f ∈ rest := by
        rcases List.mem_cons.mp hmem with h | h
        · exact absurd h.symm hgf
        · exact h
      have hne : g.name ≠ f.name := by
        intro he
        exact hnodup.1 (he ▸ List.mem_map_of_mem FsFile.name hfrest)
      rcases processFile_safe dir rc g fs (hall g (List.mem_cons_self _ _))
          (hle g (List.mem_cons_self _ _) hgf) with hcase | hcase
      · rw [pre_generate_aux_cons, hcase]
        exact ih fs hfrest hex hnodup.2
          (fun g' hg' => hall g' (List.mem_cons_of_mem _ hg'))
          (fun g' hg' h' => hle g' (List.mem_cons_of_mem _ hg') h')
      · rw [pre_generate_aux_cons, hcase]
        refine ih (fsRemove g.name fs) hfrest ?_ hnodup.2 ?_
          (fun g' hg' h' => hle g' (List.mem_cons_of_mem _ hg') h')
        · rw [fsExists_fsRemove_ne (fun he => hne he.symm) fs]
          exact hex
        · intro g' hg'
          have hne' : g'.name ≠ g.name := by
            intro he
            exact hnodup.1 (he ▸ List.mem_map_of_mem FsFile.name hg')
          rw [fsExists_fsRemove_ne hne' fs]
          exact hall g' (List.mem_cons_of_mem _ hg')

/-- Claim C1 (amended): an XML file under the area directory with a line
matching the generated-changeset regex — whose literal parentheses require
an author attribute of the form `(name)-Generated` — is removed by
pre_generate regardless of the removeController flag, provided no other
file aborts the pass first (each other file has at most one matching
line). -/
theorem C1_pre_generate_removes (dir : String) (rc : Bool) (fs : List FsFile)
    (f : FsFile) (hf : f ∈ fs) (hx : isXmlUnder dir f.name = true)
    (hnodup : (fs.map FsFile.name).Nodup)
    (hmatch : ∃ l ∈ f.content, genMatch l = true)
    (hothers : ∀ g ∈ fs, g ≠ f → g.content.countP genMatch ≤ 1) :
    fsExists f.name (pre_generate dir rc fs).2 = false := by
  have hcount : f.content.countP genMatch ≠ 0 := by
    rcases hmatch with ⟨l, hl, hm⟩
    intro h0
    exact List.countP_eq_zero.mp h0 l hl hm
  unfold pre_generate
  refine pre_generate_aux_removes dir rc f hcount (globXml dir fs) fs
    (List.mem_filter.mpr ⟨hf, hx⟩) (fsExists_of_mem hf) ?_ ?_ ?_
  · exact List.Nodup.sublist
      (List.Sublist.map FsFile.name (List.filter_sublist fs)) hnodup
  · intro g hg
    exact fsExists_of_mem (List.mem_filter.mp hg).1
  · intro g hg hgf
    exact hothers g (List.mem_filter.mp hg).1 hgf

theorem C1_pre_generate_removes_witness :
    fsExists "schema/x.xml"
      (pre_generate "schema" false
        [⟨"schema/x.xml", ["<changeSet author=\"(bob)-Generated\">\n"]⟩]).2 = false :=
  C1_pre_generate_removes "schema" false
    [⟨"schema/x.xml", ["<changeSet author=\"(bob)-Generated\">\n"]⟩]
    ⟨"schema/x.xml", ["<changeSet author=\"(bob)-Generated\">\n"]⟩
    (by decide) (by decide) (by decide)
    ⟨"<changeSet author=\"(bob)-Generated\">\n", by decide, by decide⟩
    (fun g hg hgf => absurd (List.mem_singleton.mp hg) hgf)

/-- Claim C1 as stated is false: this file's only changeset line has an
author attribute ending in `-Generated`, yet pre_generate leaves the file
in place, because the pattern's escaped parentheses make it match only
authors of the form `(name)-Generated`. -/
theorem C1_counterexample :
    (∃ v : String,
        "<changeSet author=\"bob-Generated\">\n" =
          "<changeSet author=\"" ++ v ++ "\">\n" ∧
        headEq "-Generated".data.reverse v.data.reverse = true) ∧
    pre_generate "schema" false
        [⟨"schema/tab.xml", ["<changeSet author=\"bob-Generated\">\n"]⟩] =
      (none, [⟨"schema/tab.xml", ["<changeSet author=\"bob-Generated\">\n"]⟩]) := by
  refine ⟨⟨"bob-Generated", ?_, ?_⟩, ?_⟩ <;> decide

/-- Claim C2 is contradicted by the code: the `continue` does not stop the
line scan, so a file with two matching lines has `os.remove` called twice;
the second call raises FileNotFoundError and pre_generate aborts. The file
itself is removed before the exception. -/
theorem C2_double_match_raises :
    pre_generate "schema" false
        [⟨"schema/two.xml",
          ["<changeSet author=\"(bob)-Generated\">\n",
           "<changeSet author=\"(bob)-Generated\">\n"]⟩] =
      (some (PyError.fileNotFound "schema/two.xml"), []) := by
  decide

/-! ### Password resolution (cicd.py lines 168-176) -/

/-- Python's `f.readline()` on a fresh handle: the first line of the file,
with its newline when one is present. -/
def pyReadline (s : String) : String :=
  let pre := s.data.takeWhile (fun c => c ≠ '\n')
  if pre.length = s.data.length then ⟨pre⟩ else ⟨pre ++ ['\n']⟩

/-- Word accumulator for `str.split()` with no arguments. -/
def splitAux : List Char → List Char → List (List Char)
  | [], acc => if acc.isEmpty then [] else [acc.reverse]
  | c :: rest, acc =>
    if pyIsSpace c then
      if acc.isEmpty then splitAux rest [] else acc.reverse :: splitAux rest []
    else splitAux rest (c :: acc)

/-- Python's `str.split()`: maximal runs of non-whitespace characters. -/
def pySplit (s : String) : List String :=
  (splitAux s.data []).map (fun l => ⟨l⟩)

/-- Truthiness of `args.dbPass` (argparse stores `None` when the flag is
absent; an empty string is falsy too). -/
def pyTruthyOpt : Option String → Bool
  | none => false
  | some s => s ≠ ""

/-- Outcome of the password block: the resolved password (`none` plays the
fatal `sys.exit(1)`), and whether `.secret` was opened. -/
structure ResolveOut where
  password : Option String
  secretRead : Bool
deriving DecidableEq

/-- The `except:`-guarded secret path (lines 171-176): open `.secret`
(missing file → caught, fatal), take `readline().split()[-1]`
(`[-1]` on an empty token list raises IndexError → caught, fatal). -/
def secretResolve (secret : Option String) : ResolveOut :=
  match secret with
  | none => ⟨none, true⟩
  | some content =>
    match (pySplit (pyReadline content)).getLast? with
    | some tok => ⟨some tok, true⟩
    | none => ⟨none, true⟩

/-- The password block of `__main__` (lines 168-176): `if args.dbPass:`
takes the flag, everything else falls through to the secret file. -/
def resolve_password (dbPass : Option String) (secret : Option String) : ResolveOut :=
  if pyTruthyOpt dbPass then ⟨dbPass, false⟩
  else secretResolve secret

/-- The value claim C3 describes, in the claim's own words: the first
whitespace-delimited token on the last line of the secret file. -/
def specFirstTokenLastLine (s : String) : Option String :=
  (pySplit ⟨(s.data.reverse.takeWhile (fun c => c ≠ '\n')).reverse⟩).head?

/-- Claim C3 (amended): with no password flag, the resolved password is the
last whitespace-delimited token on the first line of `.secret` (so `none`
exactly when the first line has no token), and a missing secret file is
fatal (exit 1) — resolution happens before any external invocation. -/
theorem C3_password_resolution (secret : String) :
    (resolve_password none (some secret)).password =
      (pySplit (pyReadline secret)).getLast? ∧
    (resolve_password none (some secret)).secretRead = true ∧
    (resolve_password none none).password = none := by
  refine ⟨?_, ?_, rfl⟩ <;>
    · unfold resolve_password secretResolve
      cases h : (pySplit (pyReadline secret)).getLast? <;> simp [pyTruthyOpt, h]

/-- Claim C3 as stated is false: on a `.secret` whose first line is
`a b` and last line is `c d`, the code resolves `b` (last token of the
first line), not `c` (first token of the last line). -/
theorem C3_counterexample :
    (resolve_password none (some "a b\nc d")).password = some "b" ∧
    specFirstTokenLastLine "a b\nc d" = some "c" ∧
    ¬ (resolve_password none (some "a b\nc d")).password =
        specFirstTokenLastLine "a b\nc d" := by
  refine ⟨?_, ?_, ?_⟩ <;> decide

/-- Claim C8 (amended): a non-empty password supplied via `--dbPass` is
used as-is and `.secret` is never opened. -/
theorem C8_flag_password (p : String) (hp : p ≠ "") (secret : Option String) :
    resolve_password (some p) secret = ⟨some p, false⟩ := by
  unfold resolve_password
  rw [if_pos (by simp [pyTruthyOpt, hp])]

theorem C8_flag_password_witness :
    resolve_password (some "Welcome1") (some "other\n") = ⟨some "Welcome1", false⟩ :=
  C8_flag_password "Welcome1" (by decide) (some "other\n")

/-- Claim C8 as stated is false at the empty flag value: argparse stores
the empty string, `if args.dbPass:` is falsy on it, and the program falls
through to reading `.secret`. -/
theorem C8_counterexample :
    (resolve_password (some "") (some "pw\n")).secretRead = true := by
  decide

/-! ### deploy (cicd.py lines 90-102) -/

/-- One external-tool invocation as `run_sqlcl` issues it: connect role,
working directory (`cwd=f'./{path}'`), service name, and command text. -/
structure Invocation where
  run_as : String
  cwd : String
  service : String
  cmd : String
deriving DecidableEq

/-- The invocation `run_sqlcl(run_as, password, service, path, cmd, ...)`
submits (lines 62-75). -/
def run_sqlcl_call (run_as service path cmd : String) : Invocation :=
  ⟨run_as, "./" ++ path, service, cmd⟩

/-- Filesystem operations the deploy action itself performs. -/
inductive FsOp where
  | existsCheck (path : String)
deriving DecidableEq

/-- State threaded through the deploy action: the filesystem, the
invocations issued so far, and the filesystem operations performed. -/
structure DeployOut where
  fs : List FsFile
  invocations : List Invocation
  ops : List FsOp
deriving DecidableEq

def controller_cmd : String := "lb update -changelog-file controller.xml;"

/-- deploy_call (lines 90-94): test `os.path.exists(path + '/controller.xml')`
and, when present, invoke the external tool for that area. -/
def deploy_call (path user dbName : String) (s : DeployOut) : DeployOut :=
  if fsExists (path ++ "/controller.xml") s.fs then
    ⟨s.fs, s.invocations ++ [run_sqlcl_call user dbName path controller_cmd],
      s.ops ++ [FsOp.existsCheck (path ++ "/controller.xml")]⟩
  else
    ⟨s.fs, s.invocations, s.ops ++ [FsOp.existsCheck (path ++ "/controller.xml")]⟩

/-- deploy (lines 98-102): the four areas in order, admin as ADMIN and the
rest as ADMIN[dbUser]. -/
def deploy (dbName dbUser : String) (fs : List FsFile) : DeployOut :=
  deploy_call "apex" ("ADMIN[" ++ dbUser ++ "]") dbName
    (deploy_call "data" ("ADMIN[" ++ dbUser ++ "]") dbName
      (deploy_call "schema" ("ADMIN[" ++ dbUser ++ "]") dbName
        (deploy_call "admin" "ADMIN" dbName ⟨fs, [], []⟩)))

theorem deploy_call_spec (path user dbName : String) (s : DeployOut) :
    deploy_call path user dbName s =
      ⟨s.fs,
       s.invocations ++
         (if fsExists (path ++ "/controller.xml") s.fs then
           [run_sqlcl_call user dbName path controller_cmd] else []),
       s.ops ++ [FsOp.existsCheck (path ++ "/controller.xml")]⟩ := by
  unfold deploy_call
  split <;> rename_i h <;> simp [h]

theorem deploy_spec (dbName dbUser : String) (fs : List FsFile) :
    deploy dbName dbUser fs =
      ⟨fs,
       (if fsExists "admin/controller.xml" fs then
         [run_sqlcl_call "ADMIN" dbName "admin" controller_cmd] else []) ++
       ((if fsExists "schema/controller.xml" fs then
         [run_sqlcl_call ("ADMIN[" ++ dbUser ++ "]") dbName "schema" controller_cmd] else []) ++
       ((if fsExists "data/controller.xml" fs then
         [run_sqlcl_call ("ADMIN[" ++ dbUser ++ "]") dbName "data" controller_cmd] else []) ++
       (if fsExists "apex/controller.xml" fs then
         [run_sqlcl_call ("ADMIN[" ++ dbUser ++ "]") dbName "apex" controller_cmd] else []))),
       [FsOp.existsCheck "admin/controller.xml",
        FsOp.existsCheck "schema/controller.xml",
        FsOp.existsCheck "data/controller.xml",
        FsOp.existsCheck "apex/controller.xml"]⟩ := by
  have ea : ("admin" ++ "/controller.xml" : String) = "admin/controller.xml" := rfl
  have es : ("schema" ++ "/controller.xml" : String) = "schema/controller.xml" := rfl
  have ed : ("data" ++ "/controller.xml" : String) = "data/controller.xml" := rfl
  have ex : ("apex" ++ "/controller.xml" : String) = "apex/controller.xml" := rfl
  unfold deploy
  rw [deploy_call_spec, deploy_call_spec, deploy_call_spec, deploy_call_spec]
  simp [ea, es, ed, ex, List.append_assoc]

/-- Claim C9: with only `admin/controller.xml` present, deploy issues
exactly one invocation: role ADMIN, working directory the admin area. -/
theorem C9_deploy_admin_only (dbName dbUser : String) (fs : List FsFile)
    (hadmin : fsExists "admin/controller.xml" fs = true)
    (hschema : fsExists "schema/controller.xml" fs = false)
    (hdata : fsExists "data/controller.xml" fs = false)
    (hapex : fsExists "apex/controller.xml" fs = false) :
    (deploy dbName dbUser fs).invocations =
      [⟨"ADMIN", "./admin", dbName, controller_cmd⟩] := by
  rw [deploy_spec]
  show (if fsExists "admin/controller.xml" fs then _ else _) ++ _ = _
  rw [hadmin, hschema, hdata, hapex]
  simp [run_sqlcl_call]

theorem C9_deploy_admin_only_witness :
    (deploy "mydb" "demo" [⟨"admin/controller.xml", []⟩]).invocations =
      [⟨"ADMIN", "./admin", "mydb", controller_cmd⟩] :=
  C9_deploy_admin_only "mydb" "demo" [⟨"admin/controller.xml", []⟩]
    (by decide) (by decide) (by decide) (by decide)

/-- Claim C10: deploy's own code performs no filesystem mutation — the
filesystem it ends with is the one it started with, and its only
filesystem accesses are the four existence checks on the controller
changelogs (pre_generate and post_generate are never invoked). -/
theorem C10_deploy_frame (dbName dbUser : String) (fs : List FsFile) :
    (deploy dbName dbUser fs).fs = fs ∧
    (deploy dbName dbUser fs).ops =
      [FsOp.existsCheck "admin/controller.xml",
       FsOp.existsCheck "schema/controller.xml",
       FsOp.existsCheck "data/controller.xml",
       FsOp.existsCheck "apex/controller.xml"] := by
  rw [deploy_spec]
  exact ⟨rfl, rfl⟩
